import Mathlib

/-
Shallow embedding of binance_trade_bot/models/elon_bot.py (class ElonBot).

Conventions of the embedding:
* Monetary quantities (prices, balances, order amounts) are rationals (ℚ).
  The source mixes Decimal and float on the same configuration string
  (float(self.order_size) for the comparison, Decimal(self.order_size) for the
  multiplication); both parses of one decimal literal denote the same rational
  here.
* The exchange client (self.manager) is an external capability; its query
  answers are fields of an ExchangeEnv record and every endpoint invocation is
  recorded in an explicit call trace, so that theorems can talk about which
  endpoints were hit.
* Fallible Python calls are embedded with Except; an uncaught Python exception
  is an Except.error value propagating to the caller.
* time.sleep and logging are side-effect plumbing; sleeps inside buy/trade are
  elided, while the stream consumer records its log/sleep steps as events
  because the claims mention them.
* Obvious transcription-level slips of the file (lowercase false/true, missing
  colons, the unused and inconsistently supplied current_coin parameter of
  tweet_has_crypto) are repaired to their evident intent; all control flow and
  data flow are embedded exactly as written.
-/

deriving instance DecidableEq for Except

namespace ElonBot

/-- Configuration ELON_ORDER_SIZE_MAX: either the literal string max or a
numeric fraction string (parsed as a rational). -/
inductive OrderSize where
  | max : OrderSize
  | frac (f : ℚ) : OrderSize
deriving DecidableEq

/-- One invocation of an exchange-client endpoint, in invocation order. -/
inductive ExchangeCall where
  | getAskPrice
  | getAvailableAsset
  | getMaxBorrowable
  | buyOrder (amount : ℚ)
  | sellOrder (amount : ℚ)
deriving DecidableEq

/-- Errors that can escape buy/sell/trade: the ValueError raised on an
oversized fractional order (the source formats the offending numbers into the
message; the payload is elided here), or an error raised by the exchange
client itself. -/
inductive TradeError where
  | configError
  | exchangeError (msg : String)
deriving DecidableEq

/-- Answers of the exchange-client capability for one trade cycle, plus the
behaviour of the two order endpoints (which may raise). -/
structure ExchangeEnv where
  /-- manager.get_ask_price -/
  ask_price : ℚ
  /-- first component of manager.get_available_asset, read in buy -/
  available_cash : ℚ
  /-- manager.get_max_borrowable -/
  borrowable_cash : ℚ
  /-- second component of manager.get_available_asset, read in sell -/
  available_ticker : ℚ
  /-- manager.buy: order handle (modelled as the filled amount) or a raised
  exchange error -/
  buyResponse : ℚ → Except String ℚ
  /-- manager.sell -/
  sellResponse : ℚ → Except String ℚ

/-- Result of one run of ElonBot.buy.  result is Except.ok none when the
function returned None (no available cash), Except.ok (some o) when
manager.buy returned o, Except.error when an exception escaped.  totalCash
instruments the local variable total_cash (none when it was never assigned);
maxCashDivisors records the divisor of every evaluation of the division
(available_cash + borrowable_cash) / available_cash. -/
structure BuyRun where
  result : Except TradeError (Option ℚ)
  calls : List ExchangeCall
  totalCash : Option ℚ
  maxCashDivisors : List ℚ
deriving DecidableEq

/-- ElonBot.buy.  Faithful to the source order:
ask price query, available-asset query, early return on zero available cash,
max-borrowable query, then either the max branch or the fractional branch with
its max-margin check, then the order placement. -/
def buy (order_size : OrderSize) (env : ExchangeEnv) : BuyRun :=
  -- ask_price = self.manager.get_ask_price(...)
  -- available_cash, _ = self.manager.get_available_asset(...)
  if env.available_cash = 0 then
    -- log and return None: no order, borrowable never queried
    { result := Except.ok none
      calls := [ExchangeCall.getAskPrice, ExchangeCall.getAvailableAsset]
      totalCash := none
      maxCashDivisors := [] }
  else
    -- borrowable_cash = self.manager.get_max_borrowable(...)
    let baseCalls := [ExchangeCall.getAskPrice, ExchangeCall.getAvailableAsset,
      ExchangeCall.getMaxBorrowable]
    match order_size with
    | OrderSize.max =>
      let total_cash := env.available_cash + env.borrowable_cash
      let ticker_amount := total_cash / env.ask_price
      { result :=
          match env.buyResponse ticker_amount with
          | Except.ok o => Except.ok (some o)
          | Except.error e => Except.error (TradeError.exchangeError e)
        calls := baseCalls ++ [ExchangeCall.buyOrder ticker_amount]
        totalCash := some total_cash
        maxCashDivisors := [] }
    | OrderSize.frac f =>
      let max_cash := (env.available_cash + env.borrowable_cash) / env.available_cash
      if f > max_cash then
        -- raise ValueError before any order placement
        { result := Except.error TradeError.configError
          calls := baseCalls
          totalCash := none
          maxCashDivisors := [env.available_cash] }
      else
        let total_cash := env.available_cash * f
        let ticker_amount := total_cash / env.ask_price
        { result :=
            match env.buyResponse ticker_amount with
            | Except.ok o => Except.ok (some o)
            | Except.error e => Except.error (TradeError.exchangeError e)
          calls := baseCalls ++ [ExchangeCall.buyOrder ticker_amount]
          totalCash := some total_cash
          maxCashDivisors := [env.available_cash] }

/-- ElonBot.sell: queries the available ticker amount and submits the sell
order; an exchange error raised by manager.sell escapes uncaught. -/
def sell (env : ExchangeEnv) : Except TradeError ℚ × List ExchangeCall :=
  -- _, available_ticker = self.manager.get_available_asset(self.bridge, ticker)
  (match env.sellResponse env.available_ticker with
    | Except.ok o => Except.ok o
    | Except.error e => Except.error (TradeError.exchangeError e),
   [ExchangeCall.getAvailableAsset, ExchangeCall.sellOrder env.available_ticker])

/-- Result of one run of ElonBot.trade: Except.ok none when trade returned
None (buy returned None), Except.ok (some (b, s)) for the tuple
(buy_result, sell_result), Except.error when an exception escaped trade. -/
structure TradeRun where
  result : Except TradeError (Option (ℚ × ℚ))
  calls : List ExchangeCall
deriving DecidableEq

/-- ElonBot.trade.  The source sleeps auto_buy_delay, calls self.buy (note:
the source passes its two arguments to buy in swapped order — symbols are not
modelled here, so only the balance answers in env matter), returns None when
buy returned None, otherwise sleeps auto_sell_delay and calls self.sell.
There is no exception handler: any error raised by buy or sell propagates to
the caller of trade, and on the sell-error path the buy result is dropped. -/
def trade (order_size : OrderSize) (env : ExchangeEnv) : TradeRun :=
  let b := buy order_size env
  match b.result with
  | Except.error e => { result := Except.error e, calls := b.calls }
  | Except.ok none => { result := Except.ok none, calls := b.calls }
  | Except.ok (some buy_result) =>
    let s := sell env
    match s.1 with
    | Except.error e => { result := Except.error e, calls := b.calls ++ s.2 }
    | Except.ok sell_result =>
      { result := Except.ok (some (buy_result, sell_result))
        calls := b.calls ++ s.2 }

/-- Buy leg reported to the caller of trade: the buy_result component of a
returned tuple, if any. -/
def buyLeg : Except TradeError (Option (ℚ × ℚ)) → Option ℚ
  | Except.ok (some (b, _)) => some b
  | _ => none

/-- Sell leg reported to the caller of trade. -/
def sellLeg : Except TradeError (Option (ℚ × ℚ)) → Option ℚ
  | Except.ok (some (_, s)) => some s
  | _ => none

/-- Behaviour of the OCR capability (google.cloud.vision) on one request:
the client call raised, the response carried an error message, or it returned
a list of text annotations. -/
inductive OcrOutcome where
  | raised (msg : String)
  | apiError (msg : String)
  | texts (l : List String)

/-- ElonBot.get_image_text.  Returns the empty string on a None or empty uri;
otherwise every failure of the vision capability degrades to the empty string:
a raised exception is caught by the broad except handler, and the
response.error.message branch returns the empty string (in the source that
branch's logging statement itself also raises — self in a staticmethod — and
is caught by the same handler; either way the caller sees the empty string).
On success the annotation descriptions are joined with single spaces. -/
def get_image_text (uri : Option String) (ocr : OcrOutcome) : String :=
  match uri with
  | none => ""
  | some u =>
    if u = "" then ""
    else
      match ocr with
      | OcrOutcome.raised _ => ""
      | OcrOutcome.apiError _ => ""
      | OcrOutcome.texts l => String.intercalate " " l

/-- One attached media item of a tweet payload; the url field may be absent. -/
structure MediaItem where
  url : Option String
deriving DecidableEq

/-- A decoded tweet payload: data.text plus the (possibly empty) media list
under includes. -/
structure Tweet where
  text : String
  media : List MediaItem
deriving DecidableEq

/-- image_url as computed on line 136: the url of the first media item, with
the empty string for a missing media list or a missing url field. -/
def image_url (tw : Tweet) : String :=
  match tw.media.head? with
  | none => ""
  | some m => m.url.getD ""

/-- full_text as computed on lines 137-140: the tweet text, a space, and the
image text (empty when the image signal is disabled). -/
def full_text (use_image_signal : Bool) (ocr : OcrOutcome) (tw : Tweet) : String :=
  tw.text ++ " " ++ (if use_image_signal then get_image_text (some (image_url tw)) ocr else "")

/-- The rule loop of lines 141-146.  search stands for the capability
fun p t => (re.search p t re.I).isSome — case-insensitive regular-expression
substring search — and unidec for unidecode; the source applies unidec to the
full text inside the loop body, before each search.  Rules are the items of
the ordered crypto_rules mapping, in declaration order. -/
def matchRules (search : String → String → Bool) (unidec : String → String) :
    List (String × String) → String → Option String
  | [], _ => none
  | (p, tick) :: rest, full =>
    if search p (unidec full) then some tick else matchRules search unidec rest full

/-- ElonBot.tweet_has_crypto on an already-decoded payload: combine the tweet
text with the image text, then run the rule loop.  (The current_coin
parameter of the source function is never used in its body.) -/
def tweet_has_crypto (search : String → String → Bool) (unidec : String → String)
    (use_image_signal : Bool) (ocr : OcrOutcome)
    (rules : List (String × String)) (tw : Tweet) : Option String :=
  matchRules search unidec rules (full_text use_image_signal ocr tw)

/-- ElonBot.tweet_has_crypto on a raw line: json.loads plus the field
accesses of lines 133-136, modelled as a decode capability returning none
exactly when the source would raise (malformed JSON or missing fields); the
raised decode error is uncaught and carries the offending line. -/
def tweet_has_crypto_line (decodeTweet : String → Option Tweet)
    (search : String → String → Bool) (unidec : String → String)
    (use_image_signal : Bool) (ocr : OcrOutcome)
    (rules : List (String × String)) (line : String) : Except String (Option String) :=
  match decodeTweet line with
  | none => Except.error line
  | some tw => Except.ok (tweet_has_crypto search unidec use_image_signal ocr rules tw)

/-- Observable steps of the stream consumer has_crypto_tweet. -/
inductive StreamEvent where
  | resetRules
  | connect
  | logStatus (code : Nat)
  | logError (code : Nat) (body : String)
  | sleep (seconds : Nat)
  | processLine (line : String)
deriving DecidableEq

/-- One streaming HTTP response: status code, body text (as logged on a
non-200), and the framing of the body into lines by iter_lines. -/
structure HttpResponse where
  status : Nat
  text : String
  lines : List String

/-- The for-loop over response.iter_lines() (lines 166-172): empty lines are
skipped; each non-empty line is processed; a ticker returns immediately; a
raised decode error propagates out of the loop (the visible source has no
handler); when the body is exhausted the function returns None. -/
def consumeLines (proc : String → Except String (Option String)) :
    List String → Except String (Option String) × List StreamEvent
  | [] => (Except.ok none, [])
  | l :: rest =>
    if l = "" then consumeLines proc rest
    else
      match proc l with
      | Except.error e => (Except.error e, [StreamEvent.processLine l])
      | Except.ok (some tick) => (Except.ok (some tick), [StreamEvent.processLine l])
      | Except.ok none =>
        let r := consumeLines proc rest
        (r.1, StreamEvent.processLine l :: r.2)

/-- ElonBot.has_crypto_tweet.  If a literal tweet payload was configured
(dry run), the pipeline runs on that payload immediately — before the
subscription-rule reset and before any connection.  Otherwise the consumer
resets the server-side filter rules, connects once, logs the status; on a
non-200 status it logs the error body and sleeps 60 seconds but then falls
through — there is no continue — and iterates the same response's body; after
the body is exhausted it returns None.  (The visible source's try block has
no handler, so errors from line processing propagate, and no path reaches a
second connection attempt.) -/
def has_crypto_tweet (proc : String → Except String (Option String))
    (process_tweet_text : Option String) (resp : HttpResponse) :
    Except String (Option String) × List StreamEvent :=
  match process_tweet_text with
  | some payload => (proc payload, [])
  | none =>
    let pre : List StreamEvent :=
      [StreamEvent.resetRules, StreamEvent.connect, StreamEvent.logStatus resp.status]
    let pre :=
      if resp.status ≠ 200 then
        pre ++ [StreamEvent.logError resp.status resp.text, StreamEvent.sleep 60]
      else pre
    let r := consumeLines proc resp.lines
    (r.1, pre ++ r.2)

/- Concrete fixtures used by counterexamples and witnesses. -/

/-- A concrete rule set: pattern Doge mapping to ticker DOGE. -/
def demoRules : List (String × String) := [("Doge", "DOGE")]

/-- Does pat occur as a leading segment of s? -/
def segStarts : List Char → List Char → Bool
  | [], _ => true
  | _ :: _, [] => false
  | p :: ps, c :: cs => p == c && segStarts ps cs

/-- Does pat occur as a contiguous segment of s? -/
def segOccurs (pat : List Char) : List Char → Bool
  | [] => pat.isEmpty
  | c :: cs => segStarts pat (c :: cs) || segOccurs pat cs

/-- A concrete instance of the search capability, adequate for literal
patterns: substring occurrence on the character lists. -/
def demoSearch (p t : String) : Bool := segOccurs p.data t.data

/-- A concrete instance of the decode capability: two known well-formed lines
decode to tweets with no media, everything else is malformed. -/
def demoDecode (s : String) : Option Tweet :=
  if s = "doge-line" then some { text := "Doge to the moon", media := [] }
  else if s = "cat-line" then some { text := "Nothing to see here", media := [] }
  else none

/-- The line-processing pipeline assembled from the concrete fixtures, with
the image signal disabled. -/
def demoProc : String → Except String (Option String) :=
  tweet_has_crypto_line demoDecode demoSearch id false (OcrOutcome.texts []) demoRules

/-- A concrete 503 response whose body contains one well-formed line. -/
def resp503 : HttpResponse :=
  { status := 503, text := "Service Unavailable", lines := ["doge-line"] }

/-- A concrete 503 response with an already-exhausted body. -/
def resp503empty : HttpResponse :=
  { status := 503, text := "Service Unavailable", lines := [] }

/-- A concrete 200 response with a malformed line followed by a well-formed
matching line. -/
def resp200bad : HttpResponse :=
  { status := 200, text := "", lines := ["garbage", "doge-line"] }

/-- A concrete exchange environment: ask 1, available 100, borrowable 100,
ticker balance 50, both order endpoints succeed. -/
def env100 : ExchangeEnv :=
  { ask_price := 1
    available_cash := 100
    borrowable_cash := 100
    available_ticker := 50
    buyResponse := fun amt => Except.ok amt
    sellResponse := fun amt => Except.ok amt }

/-- env100 with a zero available balance. -/
def env0 : ExchangeEnv :=
  { env100 with available_cash := 0 }

/-- env100 whose sell endpoint raises an exchange error. -/
def envSellFail : ExchangeEnv :=
  { env100 with sellResponse := fun _ => Except.error "sell rejected" }

/- Shared helper lemmas (not claim theorems). -/

/-- Every event emitted by the line-consumption loop is a line-processing
event: the loop itself never connects, sleeps or resets rules. -/
theorem consumeLines_events (proc : String → Except String (Option String)) :
    ∀ ls : List String, ∀ e ∈ (consumeLines proc ls).2, ∃ l, e = StreamEvent.processLine l := by
  intro ls
  induction ls with
  | nil => intro e he; simp [consumeLines] at he
  | cons l rest ih =>
    intro e he
    by_cases hl : l = ""
    · exact ih e (by simpa [consumeLines, hl] using he)
    · simp only [consumeLines, if_neg hl] at he
      cases hp : proc l with
      | error err => rw [hp] at he; simp at he; exact ⟨l, he⟩
      | ok o =>
        cases o with
        | none =>
          rw [hp] at he
          simp at he
          rcases he with he | he
          · exact ⟨l, he⟩
          · exact ih e he
        | some tick => rw [hp] at he; simp at he; exact ⟨l, he⟩

/- Claim theorems. -/

/-- C1: for every rule set R (in declared order) and every input text, the
rule loop of tweet_has_crypto returns the ticker of the first rule whose
pattern is found by the case-insensitive regular-expression search in the
unidecoded form of the text, and returns none if and only if no rule's
pattern is found. -/
theorem matchRules_first_match (search : String → String → Bool)
    (unidec : String → String) (rules : List (String × String)) (full : String) :
    (∀ tick : String, matchRules search unidec rules full = some tick →
      ∃ i : ℕ, ∃ p : String, rules[i]? = some (p, tick) ∧ search p (unidec full) = true ∧
        ∀ j : ℕ, ∀ r : String × String,
          j < i → rules[j]? = some r → search r.1 (unidec full) = false) ∧
    (matchRules search unidec rules full = none ↔
      ∀ r ∈ rules, search r.1 (unidec full) = false) := by
  induction rules with
  | nil =>
    constructor
    · intro tick h; simp [matchRules] at h
    · simp [matchRules]
  | cons hd rest ih =>
    obtain ⟨p, tick⟩ := hd
    by_cases h : search p (unidec full) = true
    · constructor
      · intro tick' hm
        simp only [matchRules, if_pos h, Option.some.injEq] at hm
        refine ⟨0, p, by rw [hm]; simp, h, ?_⟩
        intro j r hj
        omega
      · constructor
        · intro hnone; simp [matchRules, h] at hnone
        · intro hall
          exact absurd h (by simpa using hall (p, tick) (List.mem_cons_self _ _))
    · have hf : search p (unidec full) = false := by
        cases hsp : search p (unidec full) with
        | true => exact absurd hsp h
        | false => rfl
      constructor
      · intro tick' hm
        simp only [matchRules, if_neg h] at hm
        obtain ⟨i, q, hget, hq, hfirst⟩ := ih.1 tick' hm
        refine ⟨i + 1, q, by simpa using hget, hq, ?_⟩
        intro j r hj hget'
        cases j with
        | zero =>
          simp only [List.getElem?_cons_zero, Option.some.injEq] at hget'
          rw [← hget']
          exact hf
        | succ j' =>
          simp only [List.getElem?_cons_succ] at hget'
          exact hfirst j' r (by omega) hget'
      · simp only [matchRules, if_neg h]
        rw [ih.2]
        constructor
        · intro hall r hr
          rcases List.mem_cons.mp hr with hr | hr
          · rw [hr]; exact hf
          · exact hall r hr
        · intro hall r hr
          exact hall r (List.mem_cons_of_mem _ hr)

/-- C1 witness: at the concrete rule set and text, the match is DOGE and the
first-match characterization holds at index 0. -/
theorem matchRules_first_match_witness :
    ∃ i : ℕ, ∃ p : String, demoRules[i]? = some (p, "DOGE") ∧
      demoSearch p (id "Doge to the moon ") = true ∧
      ∀ j : ℕ, ∀ r : String × String,
        j < i → demoRules[j]? = some r → demoSearch r.1 (id "Doge to the moon ") = false :=
  (matchRules_first_match demoSearch id demoRules "Doge to the moon ").1 "DOGE" (by decide)

/-- C2: with a positive available balance a and borrowable balance b, the
fractional buy path accepts exactly the fractions up to (a + b) / a: a larger
requested fraction raises the ValueError with no order-placement call, and an
accepted fraction f commits total_cash = a * f to the order. -/
theorem buy_fractional_order_size (env : ExchangeEnv) (f : ℚ)
    (hpos : 0 < env.available_cash) :
    (f > (env.available_cash + env.borrowable_cash) / env.available_cash →
      (buy (OrderSize.frac f) env).result = Except.error TradeError.configError ∧
      ∀ amt, ExchangeCall.buyOrder amt ∉ (buy (OrderSize.frac f) env).calls) ∧
    (f ≤ (env.available_cash + env.borrowable_cash) / env.available_cash →
      (buy (OrderSize.frac f) env).totalCash = some (env.available_cash * f) ∧
      ∃ amt, amt = env.available_cash * f / env.ask_price ∧
        ExchangeCall.buyOrder amt ∈ (buy (OrderSize.frac f) env).calls) := by
  have hne : ¬ env.available_cash = 0 := ne_of_gt hpos
  constructor
  · intro hgt
    constructor
    · simp [buy, if_neg hne, if_pos hgt]
    · intro amt
      simp [buy, if_neg hne, if_pos hgt]
  · intro hle
    have hnot : ¬ f > (env.available_cash + env.borrowable_cash) / env.available_cash :=
      not_lt.mpr hle
    constructor
    · simp [buy, if_neg hne, if_neg hnot]
    · exact ⟨env.available_cash * f / env.ask_price, rfl, by
        simp [buy, if_neg hne, if_neg hnot]⟩

/-- C2 witness: with available 100 and borrowable 100 the max fraction is 2;
order size 0.5 is accepted with total_cash 50, order size 2.5 raises the
configuration error before any order-placement call. -/
theorem buy_fractional_order_size_witness :
    (buy (OrderSize.frac (1/2)) env100).totalCash = some 50 ∧
    (buy (OrderSize.frac (5/2)) env100).result = Except.error TradeError.configError ∧
    ∀ amt, ExchangeCall.buyOrder amt ∉ (buy (OrderSize.frac (5/2)) env100).calls := by
  have hpos : (0:ℚ) < env100.available_cash := by norm_num [env100]
  have h1 := buy_fractional_order_size env100 (1/2) hpos
  have h2 := buy_fractional_order_size env100 (5/2) hpos
  refine ⟨?_, ?_, ?_⟩
  · have := (h1.2 (by norm_num [env100])).1
    rw [this]
    norm_num [env100]
  · exact (h2.1 (by norm_num [env100])).1
  · exact (h2.1 (by norm_num [env100])).2

/-- C3: when the queried available balance is zero, the trade cycle returns
with both legs null and neither the buy endpoint nor the sell endpoint of the
exchange is invoked. -/
theorem trade_zero_available (os : OrderSize) (env : ExchangeEnv)
    (h : env.available_cash = 0) :
    (trade os env).result = Except.ok none ∧
    buyLeg (trade os env).result = none ∧
    sellLeg (trade os env).result = none ∧
    ∀ amt, ExchangeCall.buyOrder amt ∉ (trade os env).calls ∧
      ExchangeCall.sellOrder amt ∉ (trade os env).calls := by
  have hbuy : buy os env =
      { result := Except.ok none
        calls := [ExchangeCall.getAskPrice, ExchangeCall.getAvailableAsset]
        totalCash := none
        maxCashDivisors := [] } := by
    simp [buy, if_pos h]
  refine ⟨?_, ?_, ?_, ?_⟩
  · simp [trade, hbuy]
  · simp [trade, hbuy, buyLeg]
  · simp [trade, hbuy, sellLeg]
  · intro amt
    constructor <;> simp [trade, hbuy]

/-- C3 witness: at the concrete environment with zero available balance. -/
theorem trade_zero_available_witness :
    (trade OrderSize.max env0).result = Except.ok none ∧
    buyLeg (trade OrderSize.max env0).result = none ∧
    sellLeg (trade OrderSize.max env0).result = none ∧
    ∀ amt, ExchangeCall.buyOrder amt ∉ (trade OrderSize.max env0).calls ∧
      ExchangeCall.sellOrder amt ∉ (trade OrderSize.max env0).calls :=
  trade_zero_available OrderSize.max env0 rfl

/-- C4 counterexample: at a concrete environment where the buy leg succeeds
(the buy order for 200 is placed) and the sell endpoint raises an exchange
error, trade reports only the propagated error: the caller receives no buy
leg, so the successful buy result is not preserved and reported. -/
theorem trade_sell_error_cex :
    ExchangeCall.buyOrder 200 ∈ (trade OrderSize.max envSellFail).calls ∧
    (trade OrderSize.max envSellFail).result =
      Except.error (TradeError.exchangeError "sell rejected") ∧
    buyLeg (trade OrderSize.max envSellFail).result = none := by
  have hbuy : buy OrderSize.max envSellFail =
      { result := Except.ok (some 200)
        calls := [ExchangeCall.getAskPrice, ExchangeCall.getAvailableAsset,
          ExchangeCall.getMaxBorrowable, ExchangeCall.buyOrder 200]
        totalCash := some 200
        maxCashDivisors := [] } := by
    norm_num [buy, envSellFail, env100]
  have hsell : sell envSellFail =
      (Except.error (TradeError.exchangeError "sell rejected"),
       [ExchangeCall.getAvailableAsset, ExchangeCall.sellOrder 50]) := by
    simp [sell, envSellFail, env100]
  refine ⟨?_, ?_, ?_⟩ <;> simp [trade, hbuy, hsell, buyLeg]

/-- C4 amended: when the buy leg succeeds and the subsequent sell leg raises
an exchange-client error, the error propagates out of the trade cycle
uncaught — the value reported to the caller is the sell error alone and the
successful buy result is dropped from it (the buy order itself, however, was
already placed). -/
theorem trade_sell_error_propagates (os : OrderSize) (env : ExchangeEnv)
    (bo : ℚ) (e : String)
    (hb : (buy os env).result = Except.ok (some bo))
    (hs : env.sellResponse env.available_ticker = Except.error e) :
    (trade os env).result = Except.error (TradeError.exchangeError e) ∧
    buyLeg (trade os env).result = none ∧
    (trade os env).calls = (buy os env).calls ++
      [ExchangeCall.getAvailableAsset, ExchangeCall.sellOrder env.available_ticker] := by
  refine ⟨?_, ?_, ?_⟩ <;> simp [trade, hb, sell, hs, buyLeg]

/-- C4 witness: the amended statement at the concrete failing environment. -/
theorem trade_sell_error_propagates_witness :
    (trade OrderSize.max envSellFail).result =
      Except.error (TradeError.exchangeError "sell rejected") ∧
    buyLeg (trade OrderSize.max envSellFail).result = none ∧
    (trade OrderSize.max envSellFail).calls = (buy OrderSize.max envSellFail).calls ++
      [ExchangeCall.getAvailableAsset,
       ExchangeCall.sellOrder envSellFail.available_ticker] :=
  trade_sell_error_propagates OrderSize.max envSellFail 200 "sell rejected"
    (by norm_num [buy, envSellFail, env100]) rfl

/-- C5: every OCR failure mode degrades to an empty image-text contribution
and the combined text falls back to the tweet text alone (followed by the
separator space of the f-string); nothing is raised to the caller — the
network or API error is absorbed, an empty or missing image URL returns the
empty string, and a tweet without media contributes the empty URL. -/
theorem ocr_failure_degrades (u msg : String) (ocr : OcrOutcome) (tw : Tweet)
    (use_image : Bool) :
    get_image_text none ocr = "" ∧
    get_image_text (some "") ocr = "" ∧
    get_image_text (some u) (OcrOutcome.raised msg) = "" ∧
    get_image_text (some u) (OcrOutcome.apiError msg) = "" ∧
    full_text use_image (OcrOutcome.raised msg) tw = tw.text ++ " " ∧
    full_text use_image (OcrOutcome.apiError msg) tw = tw.text ++ " " ∧
    (tw.media = [] → full_text use_image ocr tw = tw.text ++ " ") := by
  have hget : ∀ m : OcrOutcome, (∀ l, m ≠ OcrOutcome.texts l) →
      ∀ v : String, get_image_text (some v) m = "" := by
    intro m hm v
    cases m with
    | raised e => by_cases hv : v = "" <;> simp [get_image_text, hv]
    | apiError e => by_cases hv : v = "" <;> simp [get_image_text, hv]
    | texts l => exact absurd rfl (hm l)
  have hraised := hget (OcrOutcome.raised msg) (by intro l h; cases h)
  have hapi := hget (OcrOutcome.apiError msg) (by intro l h; cases h)
  refine ⟨rfl, by simp [get_image_text], hraised u, hapi u, ?_, ?_, ?_⟩
  · cases use_image <;> simp [full_text, hraised]
  · cases use_image <;> simp [full_text, hapi]
  · intro hmedia
    have hurl : image_url tw = "" := by simp [image_url, hmedia]
    cases use_image <;> simp [full_text, hurl, get_image_text]

/-- C5 witness: the degradation equations at concrete inputs, including a
mediless tweet under a succeeding OCR capability. -/
theorem ocr_failure_degrades_witness :
    get_image_text (some "gs-img") (OcrOutcome.raised "network down") = "" ∧
    full_text true (OcrOutcome.raised "network down")
      { text := "Doge to the moon", media := [] } = "Doge to the moon" ++ " " ∧
    full_text true (OcrOutcome.texts ["ASCII art"])
      { text := "Doge to the moon", media := [] } = "Doge to the moon" ++ " " := by
  have h := ocr_failure_degrades "gs-img" "network down" (OcrOutcome.texts ["ASCII art"])
    { text := "Doge to the moon", media := [] } true
  exact ⟨h.2.2.1, h.2.2.2.2.1, h.2.2.2.2.2.2 rfl⟩

/-- C6 counterexample: on a concrete 503 response the consumer logs and
sleeps, but then treats the unusable response body as a stream of events — a
line of the 503 body is processed and its match is even returned — and with
an exhausted 503 body the consumer returns none instead of retrying the
connection. -/
theorem non200_retry_cex :
    StreamEvent.processLine "doge-line" ∈ (has_crypto_tweet demoProc none resp503).2 ∧
    (has_crypto_tweet demoProc none resp503).1 = Except.ok (some "DOGE") ∧
    (has_crypto_tweet demoProc none resp503empty).1 = Except.ok none ∧
    ((has_crypto_tweet demoProc none resp503empty).2).count StreamEvent.connect = 1 := by
  decide

/-- C6 amended: on every non-200 response the consumer logs the status and
body and sleeps the fixed 60 seconds, but it does not return to the
connecting state: it falls through and iterates the same response's body as
the event stream (all subsequent trace events are line-processing events, so
in particular no second connection is attempted), and its final outcome is
exactly the outcome of consuming that body (none when the body is
exhausted without a match). -/
theorem non200_falls_through (proc : String → Except String (Option String))
    (resp : HttpResponse) (h : resp.status ≠ 200) :
    (has_crypto_tweet proc none resp).1 = (consumeLines proc resp.lines).1 ∧
    (has_crypto_tweet proc none resp).2 =
      [StreamEvent.resetRules, StreamEvent.connect, StreamEvent.logStatus resp.status,
       StreamEvent.logError resp.status resp.text, StreamEvent.sleep 60] ++
      (consumeLines proc resp.lines).2 ∧
    ∀ e ∈ (consumeLines proc resp.lines).2, ∃ l, e = StreamEvent.processLine l := by
  refine ⟨?_, ?_, consumeLines_events proc resp.lines⟩ <;>
    simp [has_crypto_tweet, if_pos h]

/-- C6 witness: the amended statement at the concrete empty-bodied 503. -/
theorem non200_falls_through_witness :
    (has_crypto_tweet demoProc none resp503empty).1 = Except.ok none ∧
    (has_crypto_tweet demoProc none resp503empty).2 =
      [StreamEvent.resetRules, StreamEvent.connect, StreamEvent.logStatus 503,
       StreamEvent.logError 503 "Service Unavailable", StreamEvent.sleep 60] := by
  have h := non200_falls_through demoProc resp503empty (by decide)
  constructor
  · rw [h.1]; decide
  · rw [h.2.1]; decide

/-- C7 counterexample: at a concrete 200 response whose body is a malformed
line followed by a well-formed matching line, the malformed line is fatal:
the consumer's outcome is the raised decode error, and the following line —
which decodes to a match — is never processed. -/
theorem malformed_line_skipped_cex :
    (has_crypto_tweet demoProc none resp200bad).1 = Except.error "garbage" ∧
    StreamEvent.processLine "doge-line" ∉ (has_crypto_tweet demoProc none resp200bad).2 ∧
    demoProc "doge-line" = Except.ok (some "DOGE") := by
  decide

/-- C7 amended: each non-empty line is decoded as one independent event
payload, but a malformed (undecodable) line is fatal to the consumer loop:
the decode error it raises propagates out of the loop, the trace ends at that
line, and the lines after it are never consumed. -/
theorem malformed_line_fatal (proc : String → Except String (Option String))
    (pre post : List String) (bad e : String)
    (hpre : ∀ l ∈ pre, l = "" ∨ proc l = Except.ok none)
    (hbad : bad ≠ "") (hfail : proc bad = Except.error e) :
    (consumeLines proc (pre ++ bad :: post)).1 = Except.error e ∧
    (consumeLines proc (pre ++ bad :: post)).2 =
      (consumeLines proc pre).2 ++ [StreamEvent.processLine bad] := by
  revert hpre
  induction pre with
  | nil =>
    intro _
    simp [consumeLines, if_neg hbad, hfail]
  | cons l rest ih =>
    intro hpre
    have hrest : ∀ x ∈ rest, x = "" ∨ proc x = Except.ok none :=
      fun x hx => hpre x (List.mem_cons_of_mem _ hx)
    by_cases hle : l = ""
    · simp only [List.cons_append, consumeLines, if_pos hle]
      exact ih hrest
    · have hok : proc l = Except.ok none :=
        (hpre l (List.mem_cons_self _ _)).resolve_left hle
      obtain ⟨ih1, ih2⟩ := ih hrest
      constructor
      · simpa [consumeLines, if_neg hle, hok] using ih1
      · simp [consumeLines, if_neg hle, hok, ih2]

/-- C7 witness: the amended statement at a concrete stream — an empty line
and a decodable non-matching line, then the malformed line, then a line that
is never reached. -/
theorem malformed_line_fatal_witness :
    (consumeLines demoProc (["", "cat-line"] ++ "garbage" :: ["doge-line"])).1 =
      Except.error "garbage" ∧
    (consumeLines demoProc (["", "cat-line"] ++ "garbage" :: ["doge-line"])).2 =
      (consumeLines demoProc ["", "cat-line"]).2 ++ [StreamEvent.processLine "garbage"] :=
  malformed_line_fatal demoProc ["", "cat-line"] ["doge-line"] "garbage" "garbage"
    (by decide) (by decide) (by decide)

/-- C8: whenever a literal tweet payload is configured (dry run), the
consumer runs the line pipeline on that single payload and returns its
result as is, with an empty event trace: no subscription-rule reset, no
connection, no backoff sleep and no line consumption from the network (and
has_crypto_tweet never invokes the trade cycle at all — no event of the
trace, here the empty trace, is an exchange interaction). -/
theorem dry_run_bypasses_network (proc : String → Except String (Option String))
    (payload : String) (resp : HttpResponse) :
    has_crypto_tweet proc (some payload) resp = (proc payload, []) ∧
    StreamEvent.connect ∉ (has_crypto_tweet proc (some payload) resp).2 ∧
    StreamEvent.resetRules ∉ (has_crypto_tweet proc (some payload) resp).2 := by
  refine ⟨rfl, ?_, ?_⟩ <;> simp [has_crypto_tweet]

/-- C8 witness: the dry-run short circuit at the concrete payload and the
concrete (never-contacted) 503 response. -/
theorem dry_run_bypasses_network_witness :
    has_crypto_tweet demoProc (some "doge-line") resp503 = (demoProc "doge-line", []) ∧
    StreamEvent.connect ∉ (has_crypto_tweet demoProc (some "doge-line") resp503).2 ∧
    StreamEvent.resetRules ∉ (has_crypto_tweet demoProc (some "doge-line") resp503).2 :=
  dry_run_bypasses_network demoProc "doge-line" resp503

/-- C9: the division (available + borrowable) / available of the fractional
path is guarded by the zero-available early return: a zero available balance
returns None before the division site, and every divisor ever used at that
site equals the available balance and is nonzero. -/
theorem buy_division_guarded (os : OrderSize) (env : ExchangeEnv) :
    (env.available_cash = 0 →
      (buy os env).result = Except.ok none ∧ (buy os env).maxCashDivisors = []) ∧
    ∀ d ∈ (buy os env).maxCashDivisors, d = env.available_cash ∧ d ≠ 0 := by
  by_cases h : env.available_cash = 0
  · constructor
    · intro _
      constructor <;> simp [buy, if_pos h]
    · intro d hd
      simp [buy, if_pos h] at hd
  · constructor
    · intro h0; exact absurd h0 h
    · intro d hd
      cases os with
      | max => simp [buy, if_neg h] at hd
      | frac f =>
        simp only [buy, if_neg h] at hd
        by_cases hgt : f > (env.available_cash + env.borrowable_cash) / env.available_cash
        · rw [if_pos hgt] at hd
          simp at hd
          exact ⟨hd, by rw [hd]; exact h⟩
        · rw [if_neg hgt] at hd
          simp at hd
          exact ⟨hd, by rw [hd]; exact h⟩

/-- C9 witness: the zero-available early return at the concrete zero-balance
environment, and the divisor actually used on the fractional path at the
concrete funded environment. -/
theorem buy_division_guarded_witness :
    ((buy OrderSize.max env0).result = Except.ok none ∧
      (buy OrderSize.max env0).maxCashDivisors = []) ∧
    ((100:ℚ) = env100.available_cash ∧ (100:ℚ) ≠ 0) := by
  constructor
  · exact (buy_division_guarded OrderSize.max env0).1 rfl
  · exact (buy_division_guarded (OrderSize.frac (1/2)) env100).2 100
      (by norm_num [buy, env100])

/-- C10: for a positive available balance a, nonnegative borrowable balance
b and a fractional order size that passes the max-fraction check, the
committed total_cash never exceeds a + b: an accepted order size never
requires borrowing more than the max-borrowable amount. -/
theorem accepted_order_within_borrowable (env : ExchangeEnv) (f : ℚ)
    (ha : 0 < env.available_cash) (hb : 0 ≤ env.borrowable_cash)
    (t : ℚ) (ht : (buy (OrderSize.frac f) env).totalCash = some t) :
    t ≤ env.available_cash + env.borrowable_cash := by
  have hne : ¬ env.available_cash = 0 := ne_of_gt ha
  by_cases hgt : f > (env.available_cash + env.borrowable_cash) / env.available_cash
  · simp [buy, if_neg hne, if_pos hgt] at ht
  · simp only [buy, if_neg hne, if_neg hgt, Option.some.injEq] at ht
    have hle : f ≤ (env.available_cash + env.borrowable_cash) / env.available_cash :=
      not_lt.mp hgt
    have hmul : f * env.available_cash ≤ env.available_cash + env.borrowable_cash :=
      (le_div_iff₀ ha).mp hle
    rw [← ht, mul_comm]
    exact hmul

/-- C10 witness: at available 100, borrowable 100 and fraction 0.5, the
committed total_cash 50 is within the obtainable 200. -/
theorem accepted_order_within_borrowable_witness :
    (buy (OrderSize.frac (1/2)) env100).totalCash = some 50 ∧
    (50:ℚ) ≤ env100.available_cash + env100.borrowable_cash := by
  have hc : (buy (OrderSize.frac (1/2)) env100).totalCash = some 50 := by
    norm_num [buy, env100]
  exact ⟨hc, accepted_order_within_borrowable env100 (1/2) (by norm_num [env100])
    (by norm_num [env100]) 50 hc⟩

end ElonBot
